import Mathlib

/-!
Shallow embedding of the Lyrica MIDI playback engine
(`src/file.rs`, `src/player.rs`, `src/events.rs`, with `src/lib.rs` holding an
older inlined copy of the same `MidiFile`/`MidiPlayer` code that differs only
in where the loop-point seek check sits).

Modelling conventions:
* `f64` time values (`microseconds_per_tick`, `timer`, `loop_point`, seconds)
  are modelled as rationals (`ℚ`): the claims under scrutiny concern the
  exact arithmetic the code performs, not IEEE rounding.  The one place the
  models differ is division by zero (`f64` yields `inf`/`NaN`, `ℚ` yields 0);
  concrete inputs below are chosen so both models agree (`0.0 / 0.0` is `NaN`,
  which the Rust `as u32` cast sends to 0, matching `ℚ`'s `0 / 0 = 0`).
* `u32` arithmetic that can wrap in release builds
  (`ticks_since_last_update += 1`, `cumulative_delta += delta`) is taken
  modulo `2^32`; `u32::saturating_sub` is `Nat` subtraction.
* The output connection is modelled as the list of messages handed to
  `send`, in order.  The byte-level encoding performed by the external
  `midly`/`midir` crates is out of scope (spec §1); a channel-voice message is
  carried as its already-encoded bytes, and the all-sound-off broadcast is
  carried as an abstract `Controller` message (spec §6: "send a Controller
  message with controller number 123 and value 0").
* Code that can panic (`todo!`, out-of-bounds indexing) is modelled with
  `Option` / an explicit `panicked` constructor; the possibly-nonterminating
  `while timer > microseconds_per_tick` loop is modelled with explicit fuel.
-/

namespace Lyrica

/-- `2^32`, the modulus of Rust `u32` arithmetic. -/
def U32 : Nat := 4294967296

/-- A message handed to `MidiOutputConnection::send`. -/
inductive OutMsg where
  /-- Pre-encoded event bytes forwarded from a track (`ToSynth`). -/
  | synth (bytes : List Nat)
  /-- A controller message, as built by `all_sound_off` in `src/lib.rs`. -/
  | controller (channel ctrl value : Nat)
deriving DecidableEq

/-- `OwnedTrackEventKind` from `src/events.rs` / `src/file.rs`. -/
inductive OwnedTrackEventKind where
  | toSynth (bytes : List Nat)
  | tempo (t : Nat)
  | inessentialMeta
deriving DecidableEq

/-- `OwnedTrackEvent` from `src/events.rs` / `src/file.rs`:
a delta time in ticks (`u28`) and a payload. -/
structure OwnedTrackEvent where
  delta : Nat
  kind : OwnedTrackEventKind
deriving DecidableEq

/-- `TrackProgress` from `src/file.rs`. -/
structure TrackProgress where
  ticks_since_last_update : Nat
  next_event : Nat
deriving DecidableEq

instance : Inhabited TrackProgress := ⟨0, 0⟩

/-- `MidiFileFormat` from `src/file.rs`. -/
inductive MidiFileFormat where
  | sequential (current : Nat)
  | parallel
deriving DecidableEq

/-- `MidiFile` from `src/file.rs`. -/
structure MidiFile where
  ticks_per_beat : Nat
  microseconds_per_tick : ℚ
  timer : ℚ
  loop_point : Option ℚ
  format : MidiFileFormat
  tracks : List (List OwnedTrackEvent)
  progress : List TrackProgress
  paused : Bool
deriving DecidableEq

/-- `all_sound_off` (`src/lib.rs`): for channels 0..15, send a
Controller message with controller 123 ("All Sound Off") and value 0. -/
def allSoundOffMsgs : List OutMsg :=
  (List.range 16).map fun i => OutMsg.controller i 123 0

/-- `MidiFile::at_end_of_file` (`src/file.rs`; named `at_end_of_track` in the
older `src/lib.rs` copy). -/
def atEndOfFile (f : MidiFile) : Bool :=
  match f.format with
  | .sequential current => f.tracks.length ≤ current
  | .parallel =>
      (f.tracks.zip f.progress).all fun tp => tp.1.length ≤ tp.2.next_event

/-- `MidiFile::is_finished` (`src/file.rs`). -/
def isFinished (f : MidiFile) : Bool :=
  if f.loop_point.isSome then false else atEndOfFile f

/-- `MidiFile::set_paused` (`src/file.rs`): set the flag; when pausing,
emit the all-sound-off broadcast.  Returns the new state and the sent
messages. -/
def setPaused (f : MidiFile) (paused : Bool) : MidiFile × List OutMsg :=
  ({ f with paused := paused }, if paused then allSoundOffMsgs else [])

/-- `MidiFile::set_loop_point` (`src/file.rs`). -/
def setLoopPoint (f : MidiFile) (lp : Option ℚ) : MidiFile :=
  { f with loop_point := lp }

/-- The Rust `as u32` cast from `f64`, on the rational model: truncate
toward zero and saturate to `[0, 2^32)`.  (`NaN` casts to 0, matching
`ℚ`'s convention `0 / 0 = 0`.) -/
def ratToU32 (q : ℚ) : Nat :=
  if q ≤ 0 then 0 else min q.floor.toNat (U32 - 1)

/-- The inner `while` of `MidiFile::update_track` (`src/file.rs` lines
194–217), run on the suffix of the track starting at `next_event`:
while the next event's delta is at most `ticks_since_last_update`, reset the
counter to 0, advance past the event and dispatch its payload (send bytes,
or set `microseconds_per_tick := tempo / ticks_per_beat`).  Returns
(number of events fired, final `ticks_since_last_update`, final
`microseconds_per_tick`, messages sent). -/
def runDueEvents (tpb : Nat) :
    List OwnedTrackEvent → Nat → ℚ → Nat × Nat × ℚ × List OutMsg
  | [], ticks, mspt => (0, ticks, mspt, [])
  | e :: rest, ticks, mspt =>
    if e.delta > ticks then (0, ticks, mspt, [])
    else
      let out : List OutMsg :=
        match e.kind with
        | .toSynth bytes => [OutMsg.synth bytes]
        | _ => []
      let mspt' : ℚ :=
        match e.kind with
        | .tempo t => (t : ℚ) / (tpb : ℚ)
        | _ => mspt
      let r := runDueEvents tpb rest 0 mspt'
      (r.1 + 1, r.2.1, r.2.2.1, out ++ r.2.2.2)

/-- `MidiFile::update_track` (`src/file.rs`): increment
`ticks_since_last_update` (wrapping `u32`), then fire all due events.
`none` models the out-of-bounds panic of `self.tracks[track_id]` /
`self.progress[track_id]`. -/
def updateTrack (f : MidiFile) (trackId : Nat) :
    Option (MidiFile × List OutMsg) :=
  if h : trackId < f.tracks.length ∧ trackId < f.progress.length then
    let track := f.tracks.get ⟨trackId, h.1⟩
    let p := f.progress.get ⟨trackId, h.2⟩
    let ticks1 := (p.ticks_since_last_update + 1) % U32
    let r := runDueEvents f.ticks_per_beat (track.drop p.next_event)
      ticks1 f.microseconds_per_tick
    some ({ f with
        progress := f.progress.set trackId
          { ticks_since_last_update := r.2.1, next_event := p.next_event + r.1 },
        microseconds_per_tick := r.2.2.1 },
      r.2.2.2)
  else none

/-- One track's new progress under `MidiFile::seek_to`'s scan
(`src/file.rs` lines 170–186): walk the track accumulating deltas
(wrapping `u32` addition) until the running sum plus the next delta exceeds
the target; `some i` is the break index, `none` means the loop ran off the
end; the second component is the final `cumulative_delta`. -/
def seekScan (target : Nat) :
    List OwnedTrackEvent → Nat → Nat → Option Nat × Nat
  | [], _, cum => (none, cum)
  | e :: rest, i, cum =>
    if (cum + e.delta) % U32 > target then (some i, cum)
    else seekScan target rest (i + 1) ((cum + e.delta) % U32)

/-- The per-track body of `seek_to`'s `for` loop: on a break at index `i`,
`next_event := i`; otherwise `next_event` keeps its old value; either way
`ticks_since_last_update := target.saturating_sub cumulative_delta`. -/
def seekProgress (target : Nat) (track : List OwnedTrackEvent)
    (p : TrackProgress) : TrackProgress :=
  let r := seekScan target track 0 0
  { ticks_since_last_update := target - r.2,
    next_event := r.1.getD p.next_event }

/-- `seek_to`'s `for track_id in 0..tracks.len()` loop over the progress
list.  (When `progress` is shorter than `tracks` the Rust code would panic;
every state constructed by the code keeps the two lists the same length.) -/
def seekProgressList (target : Nat) :
    List (List OwnedTrackEvent) → List TrackProgress → List TrackProgress
  | [], ps => ps
  | _ :: _, [] => []
  | t :: ts, p :: ps => seekProgress target t p :: seekProgressList target ts ps

/-- `MidiFile::seek_to` (`src/file.rs`): emit all-sound-off, compute
`loop_point_in_ticks = seconds * 1_000_000 / microseconds_per_tick` cast to
`u32`, and rescan every track's progress.  Leaves `format`, `timer`,
`microseconds_per_tick` and `loop_point` untouched. -/
def seekTo (f : MidiFile) (seconds : ℚ) : MidiFile × List OutMsg :=
  let target := ratToU32 (seconds * 1000000 / f.microseconds_per_tick)
  ({ f with progress := seekProgressList target f.tracks f.progress },
    allSoundOffMsgs)

/-- `for track_id in 0..tracks.len() { update_track(track_id) }` — the
parallel branch of `MidiFile::update`'s loop body. -/
def updateTracksSeq : List Nat → MidiFile → Option (MidiFile × List OutMsg)
  | [], f => some (f, [])
  | i :: rest, f =>
    match updateTrack f i with
    | none => none
    | some (f', o) =>
      match updateTracksSeq rest f' with
      | none => none
      | some (f'', o') => some (f'', o ++ o')

/-- `if self.tracks[current].is_empty() { current += 1 }` (`src/file.rs`
lines 232–244): the sequential scheduler moves to the next track when the
current track's event deque is empty.  (Events are never popped from the
deque, so this fires only for tracks that had zero events to begin with.)
`self.tracks[current]` is in range whenever the preceding `update_track`
call returned, hence the `getD` default is never consulted. -/
def advanceSequential (current : Nat) (f1 : MidiFile) : MidiFile :=
  if (f1.tracks.getD current []).isEmpty then
    { f1 with format := .sequential (current + 1) }
  else f1

/-- `if self.at_end_of_file() { if let Some(loop_point) = self.loop_point
{ self.seek_to(loop_point) } }` (`src/file.rs` lines 254–258). -/
def loopCheck (f2 : MidiFile) : MidiFile × List OutMsg :=
  if atEndOfFile f2 then
    match f2.loop_point with
    | some lp => seekTo f2 lp
    | none => (f2, [])
  else (f2, [])

/-- The body of `MidiFile::update`'s `while` loop (`src/file.rs` lines
228–260): advance the scheduled track(s), possibly advance the sequential
`current`, seek to the loop point when at end of file, and subtract the
(possibly just updated) `microseconds_per_tick` from the timer.
`none` models a panic. -/
def updateStep (f : MidiFile) : Option (MidiFile × List OutMsg) :=
  match f.format with
  | .sequential current =>
    match updateTrack f current with
    | none => none
    | some (f1, out1) =>
      let r2 := loopCheck (advanceSequential current f1)
      some ({ r2.1 with timer := r2.1.timer - r2.1.microseconds_per_tick },
        out1 ++ r2.2)
  | .parallel =>
    match updateTracksSeq (List.range f.tracks.length) f with
    | none => none
    | some (f1, out1) =>
      let r2 := loopCheck f1
      some ({ r2.1 with timer := r2.1.timer - r2.1.microseconds_per_tick },
        out1 ++ r2.2)

/-- Result of running `MidiFile::update`: normal return, a Rust panic, or
fuel exhaustion (the `while` loop ran longer than the given bound — used to
express non-termination). -/
inductive RunResult where
  | ok (f : MidiFile) (out : List OutMsg)
  | panicked
  | outOfFuel
deriving DecidableEq

/-- The `while self.timer > self.microseconds_per_tick` loop of
`MidiFile::update`, with explicit fuel. -/
def updateLoop : Nat → MidiFile → List OutMsg → RunResult
  | 0, _, _ => .outOfFuel
  | fuel + 1, f, acc =>
    if f.timer > f.microseconds_per_tick then
      match updateStep f with
      | none => .panicked
      | some (f', o) => updateLoop fuel f' (acc ++ o)
    else .ok f acc

/-- `MidiFile::update` (`src/file.rs`): return unchanged when paused or
finished, otherwise add the delta to the timer and run the tick loop. -/
def update (fuel : Nat) (f : MidiFile) (delta : ℚ) : RunResult :=
  if f.paused || isFinished f then .ok f []
  else updateLoop fuel { f with timer := f.timer + delta } []

/-- A sequence of `update` calls with the given deltas, collecting output. -/
def updateMany (fuel : Nat) : List ℚ → MidiFile → RunResult
  | [], f => .ok f []
  | d :: ds, f =>
    match update fuel f d with
    | .ok f' out =>
      match updateMany fuel ds f' with
      | .ok f'' out' => .ok f'' (out ++ out')
      | r => r
    | r => r

/-! ### Loading (`MidiFile::from_bytes` and the `From` conversions) -/

/-- `midly::Timing`: metrical (pulses per quarter note) or SMPTE timecode. -/
inductive Timing where
  | metrical (ticksPerBeat : Nat)
  | timecode
deriving DecidableEq

/-- `midly::Format`. -/
inductive SmfFormat where
  | singleTrack
  | sequential
  | parallel
deriving DecidableEq

/-- A meta message, keeping only the distinction the code makes:
`Tempo` versus everything else. -/
inductive RawMeta where
  | tempo (t : Nat)
  | other
deriving DecidableEq

/-- `midly::TrackEventKind`.  A channel-voice message is carried as the
bytes its `LiveEvent` encoding produces (the encoder lives in the external
`midly` crate, out of scope per spec §1). -/
inductive RawEventKind where
  | midi (encoded : List Nat)
  | sysEx (bytes : List Nat)
  | escape (bytes : List Nat)
  | meta (m : RawMeta)
deriving DecidableEq

/-- `midly::TrackEvent`. -/
structure RawTrackEvent where
  delta : Nat
  kind : RawEventKind
deriving DecidableEq

/-- The already-parsed SMF value `Smf::parse` hands back (parsing itself is
an external collaborator, spec §1). -/
structure ParsedSmf where
  timing : Timing
  format : SmfFormat
  tracks : List (List RawTrackEvent)
deriving DecidableEq

/-- The `todo!` messages the loading code can abort with. -/
inductive PanicMsg where
  /-- `todo!("MIDI escape events are unimplemented")` -/
  | escapeEventsUnimplemented
  /-- `todo!("timecode timing is unimplemented")` -/
  | timecodeTimingUnimplemented
deriving DecidableEq

/-- Result of running loading/decoding code.  The Rust code either
succeeds or aborts the process via `todo!` panics; it has no
error-return path, but the `error` constructor keeps "returns a recoverable
error result" statable about it. -/
inductive LoadResult (α : Type) where
  | ok (a : α)
  | error (e : PanicMsg)
  | panicked (msg : PanicMsg)
deriving DecidableEq

/-- Is this load result a recoverable error (as opposed to a success or a
process abort)? -/
def LoadResult.isError {α : Type} : LoadResult α → Bool
  | .error _ => true
  | _ => false

/-- `impl From<TrackEventKind> for OwnedTrackEventKind`
(`src/events.rs` / `src/file.rs`): channel-voice messages are encoded and
kept, single-packet SysEx gets its leading `0xF0` re-attached, escape
events hit `todo!` (a panic), and only `Tempo` metas are meaningful. -/
def ownedKindFrom : RawEventKind → LoadResult OwnedTrackEventKind
  | .midi encoded => .ok (.toSynth encoded)
  | .sysEx bytes => .ok (.toSynth (0xF0 :: bytes))
  | .escape _ => .panicked .escapeEventsUnimplemented
  | .meta (.tempo t) => .ok (.tempo t)
  | .meta .other => .ok .inessentialMeta

/-- `impl From<TrackEvent> for OwnedTrackEvent`. -/
def ownedEventFrom (e : RawTrackEvent) : LoadResult OwnedTrackEvent :=
  match ownedKindFrom e.kind with
  | .ok k => .ok ⟨e.delta, k⟩
  | .error msg => .error msg
  | .panicked msg => .panicked msg

/-- Convert one track's events (the `map(OwnedTrackEvent::from).collect()`). -/
def convertTrack : List RawTrackEvent → LoadResult (List OwnedTrackEvent)
  | [] => .ok []
  | e :: rest =>
    match ownedEventFrom e with
    | .ok e' =>
      match convertTrack rest with
      | .ok rest' => .ok (e' :: rest')
      | .error msg => .error msg
      | .panicked msg => .panicked msg
    | .error msg => .error msg
    | .panicked msg => .panicked msg

/-- Convert every track. -/
def convertTracks :
    List (List RawTrackEvent) → LoadResult (List (List OwnedTrackEvent))
  | [] => .ok []
  | t :: rest =>
    match convertTrack t with
    | .ok t' =>
      match convertTracks rest with
      | .ok rest' => .ok (t' :: rest')
      | .error msg => .error msg
      | .panicked msg => .panicked msg
    | .error msg => .error msg
    | .panicked msg => .panicked msg

/-- `impl From<midly::Format> for MidiFileFormat`. -/
def formatFrom : SmfFormat → MidiFileFormat
  | .singleTrack => .sequential 0
  | .sequential => .sequential 0
  | .parallel => .parallel

/-- `MidiFile::from_bytes` (`src/file.rs`), starting from the parsed SMF:
timecode timing hits `todo!`, tracks are converted, and every mutable field
starts fresh — `microseconds_per_tick = 0`, `timer = 0`, no loop point,
default per-track progress, and `paused = false`. -/
def fromParsed (p : ParsedSmf) : LoadResult MidiFile :=
  match p.timing with
  | .timecode => .panicked .timecodeTimingUnimplemented
  | .metrical tpb =>
    match convertTracks p.tracks with
    | .ok tracks =>
      .ok { ticks_per_beat := tpb
            microseconds_per_tick := 0
            timer := 0
            loop_point := none
            format := formatFrom p.format
            tracks := tracks
            progress := List.replicate tracks.length default
            paused := false }
    | .error msg => .error msg
    | .panicked msg => .panicked msg

/-! ### `MidiPlayer` (`src/player.rs`)

`Instant` is modelled as a rational timestamp in microseconds, supplied to
each operation that calls `Instant::now()`; `duration_since(..).as_micros()`
is modelled as the exact difference (sub-microsecond truncation is below
the granularity any claim here needs). -/

/-- `MidiPlayer` from `src/player.rs`. -/
structure MidiPlayer where
  maybe_midi_file : Option MidiFile
  last_update_time : ℚ
deriving DecidableEq

/-- `MidiPlayer::new`. -/
def newPlayer (now : ℚ) : MidiPlayer :=
  { maybe_midi_file := none, last_update_time := now }

/-- `MidiPlayer::set_midi_file` (`src/player.rs`): emit all-sound-off
first, then store the new file.  Note: `last_update_time` is not touched. -/
def setMidiFile (p : MidiPlayer) (mf : MidiFile) : MidiPlayer × List OutMsg :=
  ({ p with maybe_midi_file := some mf }, allSoundOffMsgs)

/-- `MidiPlayer::set_paused` (`src/player.rs`): forward to the file when
one is loaded, and reset `last_update_time` to now ("Don't suddenly jump
ahead when unpausing"). -/
def playerSetPaused (p : MidiPlayer) (paused : Bool) (now : ℚ) :
    MidiPlayer × List OutMsg :=
  match p.maybe_midi_file with
  | some f =>
    let r := setPaused f paused
    ({ maybe_midi_file := some r.1, last_update_time := now }, r.2)
  | none => ({ p with last_update_time := now }, [])

/-- `MidiPlayer::is_finished`. -/
def playerIsFinished (p : MidiPlayer) : Bool :=
  match p.maybe_midi_file with
  | some f => isFinished f
  | none => true

/-- Result of `MidiPlayer::update`. -/
inductive PlayerRunResult where
  | ok (p : MidiPlayer) (out : List OutMsg)
  | panicked
  | outOfFuel
deriving DecidableEq

/-- `MidiPlayer::update` (`src/player.rs`): the delta fed to the file is
`now - last_update_time`, and `last_update_time` is refreshed to `now`. -/
def playerUpdate (fuel : Nat) (p : MidiPlayer) (now : ℚ) : PlayerRunResult :=
  let delta := now - p.last_update_time
  match p.maybe_midi_file with
  | none => .ok { p with last_update_time := now } []
  | some f =>
    match update fuel f delta with
    | .ok f' out => .ok { maybe_midi_file := some f', last_update_time := now } out
    | .panicked => .panicked
    | .outOfFuel => .outOfFuel

/-! ## Verification -/

/-- The Format Scheduler's end-of-file predicate as the spec states it
(§4.3): Sequential is finished when `current` reaches the track count;
Parallel when every track's `nextEventIndex` has reached that track's
length. -/
def schedulerFinishedSpec (f : MidiFile) : Prop :=
  match f.format with
  | .sequential current => f.tracks.length ≤ current
  | .parallel => ∀ i (hi : i < f.tracks.length) (hp : i < f.progress.length),
      (f.tracks.get ⟨i, hi⟩).length ≤ (f.progress.get ⟨i, hp⟩).next_event

/-- C2 -- `is_finished()` is true iff no loop point is set and the format
scheduler's end-of-file predicate holds (Sequential: `current` at least the
track count; Parallel: every track's `next_event` at least the track
length); whenever a loop point is set, `is_finished()` is false. -/
theorem c2_isFinished_iff (f : MidiFile)
    (h : f.progress.length = f.tracks.length) :
    (isFinished f = true ↔ f.loop_point = none ∧ schedulerFinishedSpec f) ∧
    (∀ lp : ℚ, f.loop_point = some lp → isFinished f = false) := by
  constructor
  · cases hlp : f.loop_point with
    | some lp => simp [isFinished, hlp]
    | none =>
      simp only [isFinished, hlp, Option.isSome_none, Bool.false_eq_true,
        if_false, true_and]
      unfold atEndOfFile schedulerFinishedSpec
      cases hfmt : f.format with
      | sequential current => simp
      | parallel =>
        rw [List.all_eq_true]
        constructor
        · intro hall i hi hp
          have hi' : i < (f.tracks.zip f.progress).length := by
            rw [List.length_zip]; omega
          have := hall ((f.tracks.zip f.progress).get ⟨i, hi'⟩)
            (List.get_mem _ _ _)
          rw [List.get_eq_getElem, List.getElem_zip] at this
          simpa using this
        · intro hspec x hx
          obtain ⟨i, hi, rfl⟩ := List.mem_iff_getElem.mp hx
          rw [List.getElem_zip]
          have hi1 : i < f.tracks.length := by
            rw [List.length_zip] at hi; omega
          have hi2 : i < f.progress.length := by
            rw [List.length_zip] at hi; omega
          simpa using hspec i hi1 hi2
  · intro lp hlp
    simp [isFinished, hlp]

/-- A loaded parallel-format file with one exhausted track, used to
instantiate `c2_isFinished_iff`. -/
def c2File : MidiFile :=
  { ticks_per_beat := 480, microseconds_per_tick := 2, timer := 0,
    loop_point := some 3, format := .parallel,
    tracks := [[⟨3, .inessentialMeta⟩]],
    progress := [⟨0, 1⟩], paused := false }

/-- Witness for C2 at a concrete state. -/
theorem c2_isFinished_iff_witness :
    (isFinished c2File = true ↔
      c2File.loop_point = none ∧ schedulerFinishedSpec c2File) ∧
    (∀ lp : ℚ, c2File.loop_point = some lp → isFinished c2File = false) :=
  c2_isFinished_iff c2File rfl

/-- C5 -- while paused, any sequence of `update` calls returns the state
unchanged and sends nothing; entering the paused state emits exactly the 16
all-sound-off controller-123-value-0 messages, in channel order 0..15, and
nothing else. -/
theorem c5_pause_invariant (f : MidiFile) (fuel : Nat) (ds : List ℚ)
    (h : f.paused = true) :
    updateMany fuel ds f = .ok f [] ∧
    setPaused f true = ({ f with paused := true }, allSoundOffMsgs) ∧
    allSoundOffMsgs =
      [.controller 0 123 0, .controller 1 123 0, .controller 2 123 0,
       .controller 3 123 0, .controller 4 123 0, .controller 5 123 0,
       .controller 6 123 0, .controller 7 123 0, .controller 8 123 0,
       .controller 9 123 0, .controller 10 123 0, .controller 11 123 0,
       .controller 12 123 0, .controller 13 123 0, .controller 14 123 0,
       .controller 15 123 0] := by
  refine ⟨?_, rfl, by norm_num [allSoundOffMsgs, List.range_succ]⟩
  induction ds with
  | nil => rfl
  | cons d ds ih => simp [updateMany, update, h, ih]

/-- A paused state, used to instantiate `c5_pause_invariant`. -/
def c5File : MidiFile :=
  { ticks_per_beat := 480, microseconds_per_tick := 2, timer := 1,
    loop_point := none, format := .sequential 0,
    tracks := [[⟨1, .toSynth [0x90, 60, 100]⟩]],
    progress := [⟨0, 0⟩], paused := true }

/-- Witness for C5 at a concrete paused state and delta sequence. -/
theorem c5_pause_invariant_witness :
    updateMany 4 [5, 7] c5File = .ok c5File [] ∧
    setPaused c5File true = ({ c5File with paused := true }, allSoundOffMsgs) ∧
    allSoundOffMsgs =
      [.controller 0 123 0, .controller 1 123 0, .controller 2 123 0,
       .controller 3 123 0, .controller 4 123 0, .controller 5 123 0,
       .controller 6 123 0, .controller 7 123 0, .controller 8 123 0,
       .controller 9 123 0, .controller 10 123 0, .controller 11 123 0,
       .controller 12 123 0, .controller 13 123 0, .controller 14 123 0,
       .controller 15 123 0] :=
  c5_pause_invariant c5File 4 [5, 7] rfl

/-- C6 counterexample -- decoding an escape event, and loading a
timecode-timed file, do NOT return a recoverable error result: both abort
(the `todo!` panics), so the claim fails at these concrete inputs. -/
theorem c6_unsupported_counterexample :
    (ownedKindFrom (.escape [0x01, 0x02])).isError = false ∧
    ownedKindFrom (.escape [0x01, 0x02]) =
      .panicked .escapeEventsUnimplemented ∧
    (fromParsed ⟨.timecode, .parallel, []⟩).isError = false ∧
    fromParsed ⟨.timecode, .parallel, []⟩ =
      .panicked .timecodeTimingUnimplemented :=
  ⟨rfl, rfl, rfl, rfl⟩

/-- C6 amended -- timecode timing and escape events abort via `todo!`
panics at load/decode time (not recoverable error results), and a split
(or any) system-exclusive event is not rejected at all: it is forwarded
best-effort with a leading `0xF0` byte re-attached. -/
theorem c6_unsupported_amended :
    ownedKindFrom (.escape [0x01, 0x02]) =
      .panicked .escapeEventsUnimplemented ∧
    fromParsed ⟨.timecode, .parallel, []⟩ =
      .panicked .timecodeTimingUnimplemented ∧
    ownedKindFrom (.sysEx [0x7E, 0x7F]) =
      .ok (.toSynth [0xF0, 0x7E, 0x7F]) :=
  ⟨rfl, rfl, rfl⟩

/-- C8 amended -- toggling pause resets `last_update_time` to now, but
swapping in a new file does not touch it: the next `update` after a swap
computes its delta from the last pre-swap update. -/
theorem c8_last_update_time (p : MidiPlayer) (b : Bool) (now : ℚ)
    (mf : MidiFile) :
    (playerSetPaused p b now).1.last_update_time = now ∧
    (setMidiFile p mf).1.last_update_time = p.last_update_time := by
  refine ⟨?_, rfl⟩
  unfold playerSetPaused
  cases p.maybe_midi_file <;> rfl

/-- A freshly built file whose tempo is slow enough that a 5-microsecond
backlog fires no event, used for the C8 counterexample. -/
def c8File : MidiFile :=
  { ticks_per_beat := 480, microseconds_per_tick := 10, timer := 0,
    loop_point := none, format := .sequential 0,
    tracks := [[⟨1, .inessentialMeta⟩]],
    progress := [⟨0, 0⟩], paused := false }

/-- C8 counterexample -- swapping in a new file does not reset
`last_update_time`: for a player last updated at time 0, after
`set_midi_file` the stored time is still 0 (whatever the wall clock reads),
so the next `update` at time 5 feeds the whole 5-microsecond pre-swap
backlog into the fresh file (its timer becomes 5, not 0). -/
theorem c8_swap_backlog_counterexample :
    (setMidiFile (newPlayer 0) c8File).1.last_update_time = 0 ∧
    playerUpdate 1 (setMidiFile (newPlayer 0) c8File).1 5 =
      .ok ⟨some { c8File with timer := 5 }, 5⟩ [] := by
  constructor
  · rfl
  · norm_num [playerUpdate, setMidiFile, newPlayer, update, isFinished,
      atEndOfFile, updateLoop, c8File]

/-! ### Timer bookkeeping lemmas (for C4) -/

/-- `update_track` never touches the timer. -/
lemma updateTrack_timer {f : MidiFile} {i : Nat} {g : MidiFile}
    {o : List OutMsg} (h : updateTrack f i = some (g, o)) :
    g.timer = f.timer := by
  unfold updateTrack at h
  split at h
  · simp only [Option.some.injEq, Prod.mk.injEq] at h
    obtain ⟨h1, h2⟩ := h
    subst h1
    rfl
  · exact absurd h (by simp)

/-- Neither does the parallel per-track loop. -/
lemma updateTracksSeq_timer : ∀ (ids : List Nat) {f g : MidiFile}
    {o : List OutMsg}, updateTracksSeq ids f = some (g, o) →
    g.timer = f.timer := by
  intro ids
  induction ids with
  | nil =>
    intro f g o h
    simp only [updateTracksSeq, Option.some.injEq, Prod.mk.injEq] at h
    rw [← h.1]
  | cons i rest ih =>
    intro f g o h
    unfold updateTracksSeq at h
    split at h
    · exact absurd h (by simp)
    · rename_i f1 o1 hut
      split at h
      · exact absurd h (by simp)
      · rename_i f2 o2 hrest
        simp only [Option.some.injEq, Prod.mk.injEq] at h
        rw [← h.1, ih hrest, updateTrack_timer hut]

/-- `advanceSequential` only touches the format. -/
lemma advanceSequential_timer (c : Nat) (f1 : MidiFile) :
    (advanceSequential c f1).timer = f1.timer := by
  unfold advanceSequential
  split <;> rfl

/-- The end-of-file loop check never touches the timer (a seek rewrites
only the per-track progress). -/
lemma loopCheck_timer (g : MidiFile) : (loopCheck g).1.timer = g.timer := by
  unfold loopCheck
  split
  · cases g.loop_point <;> rfl
  · rfl

/-- Every completed `update` tick subtracts the final (post-tick)
`microseconds_per_tick` from the timer: a tempo change fired during the
tick governs the very iteration that fired it. -/
lemma updateStep_timer {f f' : MidiFile} {out : List OutMsg}
    (h : updateStep f = some (f', out)) :
    f'.timer = f.timer - f'.microseconds_per_tick := by
  unfold updateStep at h
  split at h
  · rename_i current hfmt
    split at h
    · exact absurd h (by simp)
    · rename_i f1 out1 hut
      simp only [Option.some.injEq, Prod.mk.injEq] at h
      obtain ⟨h1, h2⟩ := h
      subst h1
      simp only
      rw [loopCheck_timer, advanceSequential_timer, updateTrack_timer hut]
  · rename_i hfmt
    split at h
    · exact absurd h (by simp)
    · rename_i f1 out1 hut
      simp only [Option.some.injEq, Prod.mk.injEq] at h
      obtain ⟨h1, h2⟩ := h
      subst h1
      simp only
      rw [loopCheck_timer, updateTracksSeq_timer _ hut]

/-- C4 -- a Tempo payload `t` that fires during a tick immediately sets
`microseconds_per_tick := t / ticks_per_beat`, and the new value governs
the rest of the same `update` call's `while` loop: the very tick that fired
it already subtracts the new value from the timer. -/
theorem c4_tempo_change (tpb t d ticks : Nat) (mspt : ℚ) (hd : d ≤ ticks)
    (f f' : MidiFile) (out : List OutMsg)
    (hstep : updateStep f = some (f', out)) :
    (runDueEvents tpb [⟨d, .tempo t⟩] ticks mspt).2.2.1 = (t : ℚ) / (tpb : ℚ) ∧
    f'.timer = f.timer - f'.microseconds_per_tick := by
  refine ⟨?_, updateStep_timer hstep⟩
  have hnd : ¬ d > ticks := by omega
  simp [runDueEvents, hnd]

/-- A freshly loaded file whose first event is a Tempo 500000 payload,
with pulses-per-quarter-note 480, one tick due. -/
def c4File : MidiFile :=
  { ticks_per_beat := 480, microseconds_per_tick := 0, timer := 1,
    loop_point := none, format := .sequential 0,
    tracks := [[⟨1, .tempo 500000⟩]],
    progress := [⟨0, 0⟩], paused := false }

/-- The state after one tick of `c4File`: tempo applied, timer already
reduced by the new `microseconds_per_tick`. -/
def c4FileNext : MidiFile :=
  { c4File with
    microseconds_per_tick := 500000 / 480,
    timer := 1 - 500000 / 480,
    progress := [⟨0, 1⟩] }

/-- Witness for C4: with pulses-per-quarter-note 480 and Tempo payload
500000, the fired tempo yields `microseconds_per_tick = 500000 / 480`. -/
theorem c4_tempo_change_witness :
    (runDueEvents 480 [⟨1, .tempo 500000⟩] 1 0).2.2.1 =
      ((500000 : Nat) : ℚ) / ((480 : Nat) : ℚ) ∧
    c4FileNext.timer = c4File.timer - c4FileNext.microseconds_per_tick :=
  c4_tempo_change 480 500000 1 1 0 (by decide) c4File c4FileNext []
    (by norm_num [updateStep, updateTrack, runDueEvents, advanceSequential,
      loopCheck, atEndOfFile, U32, c4File, c4FileNext])

/-- A loaded sequential file whose single (nonempty) track is fully played
out: `next_event` equals the track length. -/
def c1File : MidiFile :=
  { ticks_per_beat := 480, microseconds_per_tick := 1, timer := 0,
    loop_point := none, format := .sequential 0,
    tracks := [[⟨1, .inessentialMeta⟩]],
    progress := [⟨0, 1⟩], paused := false }

/-- C1 -- the scheduler does NOT advance `current` when the current
track's progress reaches its end: for `c1File` (current track nonempty and
fully played out, `next_event` = track length = 1), the next tick leaves
`current` at 0 and the file unfinished.  `current` advances only when the
track's event deque `is_empty()`, and events are never popped from the
deque, so a nonempty track never triggers the transition. -/
theorem c1_no_advance_at_track_end :
    (c1File.progress.getD 0 default).next_event =
      (c1File.tracks.getD 0 []).length ∧
    isFinished c1File = false ∧
    ((updateStep c1File).map fun r =>
      (r.1.format, r.1.progress, isFinished r.1, r.2)) =
      some (.sequential 0, [⟨1, 1⟩], false, []) := by
  refine ⟨rfl, rfl, ?_⟩
  norm_num [updateStep, updateTrack, runDueEvents, advanceSequential,
    loopCheck, isFinished, atEndOfFile, U32, c1File]

/-- A sequential file with one zero-event track and a loop point set:
after the first tick `current` becomes 1 (= track count), `is_finished`
stays false because of the loop point, and the next tick indexes
`tracks[1]` out of bounds. -/
def c9File : MidiFile :=
  { ticks_per_beat := 480, microseconds_per_tick := 0, timer := 0,
    loop_point := some 0, format := .sequential 0,
    tracks := [[]], progress := [⟨0, 0⟩], paused := false }

/-- C9 -- `update` CAN index the track list out of bounds: with a loop
point set on a sequential file whose `current` has run past the last track
(the loop seek never resets `current`), the guard `is_finished()` is false
and the tick-advance step panics. -/
theorem c9_out_of_bounds_panic :
    isFinished c9File = false ∧
    update 3 c9File 1 = RunResult.panicked := by
  refine ⟨rfl, ?_⟩
  norm_num [update, isFinished, updateLoop, updateStep, updateTrack,
    runDueEvents, seekTo, ratToU32, seekProgressList, seekProgress, seekScan,
    atEndOfFile, advanceSequential, loopCheck, allSoundOffMsgs, U32, c9File]

/-- C7 amended -- replacing the loaded file emits the all-sound-off
broadcast first (and nothing else), stores the new file as built by
`from_bytes`, and that file starts entirely fresh: timer 0,
`microseconds_per_tick` 0, no loop point, format taken from the new file's
header, default per-track progress — and `paused = false`, i.e. the paused
flag is NOT preserved across the replacement. -/
theorem c7_load_resets (p : MidiPlayer) (q : ParsedSmf) (mf : MidiFile)
    (h : fromParsed q = .ok mf) :
    (setMidiFile p mf).2 = allSoundOffMsgs ∧
    (setMidiFile p mf).1.maybe_midi_file = some mf ∧
    mf.paused = false ∧ mf.timer = 0 ∧ mf.microseconds_per_tick = 0 ∧
    mf.loop_point = none ∧ mf.format = formatFrom q.format ∧
    mf.progress = List.replicate mf.tracks.length default := by
  refine ⟨rfl, rfl, ?_⟩
  unfold fromParsed at h
  cases hq : q.timing with
  | timecode => rw [hq] at h; exact absurd h (by simp)
  | metrical tpb =>
    rw [hq] at h
    cases hct : convertTracks q.tracks with
    | ok tracks =>
      rw [hct] at h
      simp only [LoadResult.ok.injEq] at h
      subst h
      simp
    | error m => rw [hct] at h; exact absurd h (by simp)
    | panicked m => rw [hct] at h; exact absurd h (by simp)

/-- A paused loaded file (one empty track), about to be replaced. -/
def c7PausedFile : MidiFile :=
  { ticks_per_beat := 480, microseconds_per_tick := 2, timer := 0,
    loop_point := none, format := .sequential 0, tracks := [[]],
    progress := [⟨0, 0⟩], paused := true }

/-- What `from_bytes` builds for a single-track file with one empty track
and 96 pulses per quarter note. -/
def c7FreshFile : MidiFile :=
  { ticks_per_beat := 96, microseconds_per_tick := 0, timer := 0,
    loop_point := none, format := .sequential 0, tracks := [[]],
    progress := [⟨0, 0⟩], paused := false }

/-- C7 counterexample -- the paused flag is NOT preserved across a file
replacement: a player whose loaded file is paused, after `set_midi_file`
with a freshly loaded file, holds an unpaused file (playback resumes on the
next update). -/
theorem c7_paused_not_preserved :
    (MidiPlayer.mk (some c7PausedFile) 0).maybe_midi_file.map
      MidiFile.paused = some true ∧
    fromParsed ⟨.metrical 96, .singleTrack, [[]]⟩ = .ok c7FreshFile ∧
    (setMidiFile ⟨some c7PausedFile, 0⟩ c7FreshFile).1.maybe_midi_file.map
      MidiFile.paused = some false :=
  ⟨rfl, rfl, rfl⟩

/-- Witness for the amended C7 at a concrete player and parsed file. -/
theorem c7_load_resets_witness :
    (setMidiFile ⟨some c7PausedFile, 0⟩ c7FreshFile).2 = allSoundOffMsgs ∧
    (setMidiFile ⟨some c7PausedFile, 0⟩ c7FreshFile).1.maybe_midi_file =
      some c7FreshFile ∧
    c7FreshFile.paused = false ∧ c7FreshFile.timer = 0 ∧
    c7FreshFile.microseconds_per_tick = 0 ∧
    c7FreshFile.loop_point = none ∧
    c7FreshFile.format = formatFrom SmfFormat.singleTrack ∧
    c7FreshFile.progress = List.replicate c7FreshFile.tracks.length default :=
  c7_load_resets ⟨some c7PausedFile, 0⟩ ⟨.metrical 96, .singleTrack, [[]]⟩
    c7FreshFile rfl

/-- Sum of the first `k` event deltas of a track. -/
def deltaPrefix (t : List OwnedTrackEvent) (k : Nat) : Nat :=
  ((t.take k).map fun e => e.delta).sum

lemma deltaPrefix_zero (t : List OwnedTrackEvent) : deltaPrefix t 0 = 0 := rfl

lemma deltaPrefix_cons (e : OwnedTrackEvent) (t : List OwnedTrackEvent)
    (k : Nat) : deltaPrefix (e :: t) (k + 1) = e.delta + deltaPrefix t k := by
  simp [deltaPrefix]

/-- The seek scan breaks exactly at the first index whose prefix sum plus
its own delta exceeds the target, returning the prefix sum before it
(no `u32` wrap when the whole track's delta sum stays below `2^32`). -/
lemma seekScan_break (T : Nat) :
    ∀ (t : List OwnedTrackEvent) (k i cum : Nat),
      k < t.length →
      cum + (t.map fun e => e.delta).sum < U32 →
      (∀ j, j < k → cum + deltaPrefix t (j + 1) ≤ T) →
      T < cum + deltaPrefix t (k + 1) →
      seekScan T t i cum = (some (i + k), cum + deltaPrefix t k) := by
  intro t
  induction t with
  | nil => intro k i cum hk; simp at hk
  | cons e rest ih =>
    intro k i cum hk hnw hmin hT
    have hsum : cum + e.delta + (rest.map fun e => e.delta).sum < U32 := by
      simp only [List.map_cons, List.sum_cons] at hnw; omega
    have hmod : (cum + e.delta) % U32 = cum + e.delta :=
      Nat.mod_eq_of_lt (by omega)
    cases k with
    | zero =>
      have hgt : T < cum + e.delta := by
        rw [deltaPrefix_cons, deltaPrefix_zero] at hT; omega
      unfold seekScan
      rw [hmod, if_pos hgt]
      simp [deltaPrefix_zero]
    | succ n =>
      have hle : cum + e.delta ≤ T := by
        have := hmin 0 (Nat.succ_pos n)
        rw [deltaPrefix_cons, deltaPrefix_zero] at this; omega
      unfold seekScan
      rw [hmod, if_neg (by omega)]
      rw [ih n (i + 1) (cum + e.delta) (by simpa using hk) (by omega)
        (fun j hj => by
          have := hmin (j + 1) (by omega)
          rw [deltaPrefix_cons] at this; omega)
        (by rw [deltaPrefix_cons] at hT; omega)]
      rw [Prod.mk.injEq, deltaPrefix_cons]
      refine ⟨by rw [Option.some.injEq]; omega, by omega⟩

/-- Indexing the progress list rebuilt by the seek loop. -/
lemma seekProgressList_getElem (target : Nat) :
    ∀ (ts : List (List OwnedTrackEvent)) (ps : List TrackProgress) (j : Nat)
      (hj : j < ts.length) (hp : j < ps.length),
      (seekProgressList target ts ps)[j]? =
        some (seekProgress target (ts.get ⟨j, hj⟩) (ps.get ⟨j, hp⟩)) := by
  intro ts
  induction ts with
  | nil => intro ps j hj; simp at hj
  | cons t ts ih =>
    intro ps j hj hp
    cases ps with
    | nil => simp at hp
    | cons p ps =>
      cases j with
      | zero => simp [seekProgressList]
      | succ n =>
        simp only [seekProgressList, List.getElem?_cons_succ,
          List.get_cons_succ]
        exact ih ps n (by simpa using hj) (by simpa using hp)

/-- C3 -- `seek_to(seconds)` computes
`targetTicks = seconds * 1,000,000 / microseconds_per_tick` (cast to u32);
for a track whose cumulative delta sums exceed the target at some first
index `k`, the track's `next_event` becomes `k` and
`ticks_since_last_update` becomes `targetTicks` minus the cumulative sum
before event `k` (saturating at 0), while the all-sound-off broadcast is
emitted. -/
theorem c3_seek_scan (f : MidiFile) (seconds : ℚ) (j k : Nat)
    (hj : j < f.tracks.length) (hp : j < f.progress.length)
    (hnw : ((f.tracks.get ⟨j, hj⟩).map fun e => e.delta).sum < U32)
    (hk : k < (f.tracks.get ⟨j, hj⟩).length)
    (hmin : ∀ l, l < k → deltaPrefix (f.tracks.get ⟨j, hj⟩) (l + 1) ≤
      ratToU32 (seconds * 1000000 / f.microseconds_per_tick))
    (hgt : ratToU32 (seconds * 1000000 / f.microseconds_per_tick) <
      deltaPrefix (f.tracks.get ⟨j, hj⟩) (k + 1)) :
    ((seekTo f seconds).1.progress)[j]? = some
      { ticks_since_last_update :=
          ratToU32 (seconds * 1000000 / f.microseconds_per_tick) -
            deltaPrefix (f.tracks.get ⟨j, hj⟩) k,
        next_event := k } ∧
    (seekTo f seconds).2 = allSoundOffMsgs := by
  refine ⟨?_, rfl⟩
  unfold seekTo
  simp only
  rw [seekProgressList_getElem _ _ _ j hj hp]
  unfold seekProgress
  rw [seekScan_break _ _ k 0 0 hk (by simpa using hnw)
    (by simpa using hmin) (by simpa using hgt)]
  simp

/-- A parallel file with one track of deltas `[3, 4]`, tempo 2 µs/tick,
and stale progress, about to be sought. -/
def c3File : MidiFile :=
  { ticks_per_beat := 480, microseconds_per_tick := 2, timer := 0,
    loop_point := none, format := .parallel,
    tracks := [[⟨3, .inessentialMeta⟩, ⟨4, .inessentialMeta⟩]],
    progress := [⟨7, 2⟩], paused := false }

/-- Witness for C3 at a concrete file and seek time. -/
theorem c3_seek_scan_witness :
    ((seekTo c3File 0).1.progress)[0]? = some
      { ticks_since_last_update :=
          ratToU32 (0 * 1000000 / c3File.microseconds_per_tick) -
            deltaPrefix (c3File.tracks.get ⟨0, by decide⟩) 0,
        next_event := 0 } ∧
    (seekTo c3File 0).2 = allSoundOffMsgs :=
  c3_seek_scan c3File 0 0 0 (by decide) (by decide) (by decide) (by decide)
    (fun l hl => absurd hl (Nat.not_lt_zero l))
    (by simp [ratToU32, deltaPrefix, c3File])

/-! ### C10: the tick loop with a zero tick duration -/

/-- A parsed single-track file whose only event is a non-Tempo meta. -/
def c10Smf : ParsedSmf :=
  ⟨.metrical 480, .singleTrack, [[⟨0, .meta .other⟩]]⟩

/-- What `from_bytes` builds for `c10Smf`: `microseconds_per_tick = 0`
until a first Tempo event — which this file does not contain. -/
def c10Fresh : MidiFile :=
  { ticks_per_beat := 480, microseconds_per_tick := 0, timer := 0,
    loop_point := none, format := .sequential 0,
    tracks := [[⟨0, .inessentialMeta⟩]],
    progress := [⟨0, 0⟩], paused := false }

/-- The family of states `update` cycles through on `c10Fresh` after a
positive delta: timer pinned at 1, tempo still zero, progress varying. -/
def c10Base (p : TrackProgress) : MidiFile :=
  { c10Fresh with timer := 1, progress := [p] }

/-- One iteration of the `while` loop maps the family into itself: the
tick subtracts `microseconds_per_tick = 0` from the positive timer. -/
lemma c10_step (p : TrackProgress) :
    ∃ p' : TrackProgress, updateStep (c10Base p) = some (c10Base p', []) := by
  cases hn : p.next_event with
  | zero =>
    refine ⟨⟨0, 1⟩, ?_⟩
    norm_num [updateStep, updateTrack, runDueEvents, advanceSequential,
      loopCheck, atEndOfFile, c10Base, c10Fresh, U32, hn]
  | succ n =>
    refine ⟨⟨(p.ticks_since_last_update + 1) % U32, n + 1⟩, ?_⟩
    norm_num [updateStep, updateTrack, runDueEvents, advanceSequential,
      loopCheck, atEndOfFile, c10Base, c10Fresh, hn]

/-- The loop never exits, whatever the fuel. -/
lemma c10_loop : ∀ (fuel : Nat) (p : TrackProgress) (acc : List OutMsg),
    updateLoop fuel (c10Base p) acc = .outOfFuel := by
  intro fuel
  induction fuel with
  | zero => intro p acc; rfl
  | succ n ih =>
    intro p acc
    obtain ⟨p', hp'⟩ := c10_step p
    have hcond : (c10Base p).timer > (c10Base p).microseconds_per_tick := by
      norm_num [c10Base, c10Fresh]
    simp only [updateLoop, if_pos hcond, hp']
    exact ih p' (acc ++ [])

/-- C10 amended -- starting from the freshly loaded `c10Smf`
(`microseconds_per_tick = 0`, a nonempty track, no Tempo payload anywhere),
`update` with delta 1 > 0 never terminates: every iteration of the `while`
loop subtracts 0 from the positive timer. -/
theorem c10_no_tempo_never_terminates :
    fromParsed c10Smf = .ok c10Fresh ∧
    c10Fresh.microseconds_per_tick = 0 ∧
    ∀ fuel : Nat, update fuel c10Fresh 1 = RunResult.outOfFuel := by
  refine ⟨rfl, rfl, ?_⟩
  intro fuel
  unfold update
  rw [if_neg (by decide)]
  have hbase : { c10Fresh with timer := c10Fresh.timer + 1 } = c10Base ⟨0, 0⟩ := by
    norm_num [c10Fresh, c10Base]
  rw [hbase]
  exact c10_loop fuel ⟨0, 0⟩ []

/-- A parsed file with no tracks at all. -/
def c10ZeroSmf : ParsedSmf := ⟨.metrical 480, .singleTrack, []⟩

/-- What `from_bytes` builds for `c10ZeroSmf`. -/
def c10ZeroFresh : MidiFile :=
  { ticks_per_beat := 480, microseconds_per_tick := 0, timer := 0,
    loop_point := none, format := .sequential 0,
    tracks := [], progress := [], paused := false }

/-- C10 counterexample -- a freshly loaded zero-track file has
`microseconds_per_tick = 0` and no Tempo payload anywhere, yet
`update` with delta 1 > 0 terminates immediately (the file counts as
finished), so "update terminates only when microseconds_per_tick is or
becomes positive" fails, as does the unqualified "a freshly loaded file
with no Tempo payload never terminates". -/
theorem c10_zero_track_terminates :
    fromParsed c10ZeroSmf = .ok c10ZeroFresh ∧
    c10ZeroFresh.microseconds_per_tick = 0 ∧
    update 1000 c10ZeroFresh 1 = .ok c10ZeroFresh [] := by
  refine ⟨rfl, rfl, ?_⟩
  norm_num [update, isFinished, atEndOfFile, c10ZeroFresh]

end Lyrica
